import Mathlib

/-!
Verification of the blog-revival content pipeline: a shallow embedding of
`content_fetcher.py` (fetch_post, _parse_content, _try_wp_api,
_is_blocked_page) and `sitemap_crawler.py` (get_site_pages,
_fetch_and_parse, _parse_sitemap_xml), together with theorems settling the
specification claims about them.

Network I/O is modelled by explicit environments (a function from URL to
the observed response), and every embedded operation additionally returns
the list of network events it performed, so that "no further candidate is
fetched" style properties are expressible.  HTML and XML documents that the
Python code obtains from the BeautifulSoup / ElementTree libraries are
modelled as explicit node trees; for sitemaps a small executable XML reader
(`fromstring`) stands in for `xml.etree.ElementTree.fromstring`.
-/

namespace BlogRevival

/-! ## Python-faithful string helpers -/
/-- `listStarts pre l` : does `l` start with `pre` (Python `str.startswith`
at the character-list level). -/
def listStarts : List Char → List Char → Bool
  | [], _ => true
  | _ :: _, [] => false
  | a :: as, b :: bs => a == b && listStarts as bs

/-- Python `s.startswith(pre)`. -/
def strStarts (s pre : String) : Bool :=
  listStarts pre.data s.data

/-- Does `needle` occur at the head of `hay`? -/
def subAt : List Char → List Char → Bool
  | [], _ => true
  | _ :: _, [] => false
  | a :: as, b :: bs => a == b && subAt as bs

/-- Does `needle` occur anywhere in `hay`? (Python `needle in hay`;
the empty needle matches everywhere, as in Python.) -/
def hasSubList (needle : List Char) : List Char → Bool
  | [] => subAt needle []
  | c :: rest => subAt needle (c :: rest) || hasSubList needle rest

/-- Python substring test `needle in hay`. -/
def strHasSub (hay needle : String) : Bool :=
  hasSubList needle.data hay.data

/-- Python `str.lower()` (ASCII-faithful). -/
def pyLower (s : String) : String :=
  String.mk (s.data.map Char.toLower)

/-- The first `n` characters, Python `s[:n]`. -/
def strTake (s : String) (n : Nat) : String :=
  String.mk (s.data.take n)

/-- All but the first `n` characters, Python `s[n:]`. -/
def strDrop (s : String) (n : Nat) : String :=
  String.mk (s.data.drop n)

/-- Python `str.strip()`: whitespace removed from both ends. -/
def pyTrim (s : String) : String :=
  String.mk (((s.data.dropWhile Char.isWhitespace).reverse.dropWhile
    Char.isWhitespace).reverse)

/-- Python `s.rstrip("/")`: drop trailing `'/'` characters. -/
def rstripSlashes (s : String) : String :=
  String.mk (s.data.reverse.dropWhile (· == '/')).reverse

/-- `sep.join(parts)`. -/
def joinWith (sep : String) : List String → String
  | [] => ""
  | [x] => x
  | x :: y :: rest => x ++ sep ++ joinWith sep (y :: rest)

/-- Splitter for Python `s.split(sep)` with a non-empty separator, with
fuel bounding the scan (callers pass the input length, which suffices). -/
def splitOnGo (sep : List Char) : Nat → List Char → List Char → List (List Char)
  | _, [], acc => [acc.reverse]
  | 0, l, acc => [acc.reverse ++ l]
  | fuel + 1, c :: rest, acc =>
    if sep ≠ [] && subAt sep (c :: rest) then
      acc.reverse :: splitOnGo sep fuel ((c :: rest).drop sep.length) []
    else splitOnGo sep fuel rest (c :: acc)

/-- Python `s.split(sep)` for a non-empty separator. -/
def pySplit (s sep : String) : List String :=
  (splitOnGo sep.data s.data.length s.data []).map String.mk

/-- Python `s.replace(old, new)` (split on `old`, join with `new`). -/
def pyReplace (s old new : String) : String :=
  joinWith new (pySplit s old)

/-- Collector for Python `str.split()` (whitespace words, empties
dropped); `acc` is the reversed current word. -/
def wordsGo : List Char → List Char → List (List Char)
  | [], acc => if acc.isEmpty then [] else [acc.reverse]
  | c :: rest, acc =>
    if c.isWhitespace then
      if acc.isEmpty then wordsGo rest [] else acc.reverse :: wordsGo rest []
    else wordsGo rest (c :: acc)

/-- Python `str.split()` with no argument: whitespace-delimited tokens,
empty tokens dropped. -/
def pyWords (s : String) : List String :=
  (wordsGo s.data []).map String.mk

/-- `len(s.split())` from the source: number of whitespace-delimited words. -/
def pyWordCount (s : String) : Nat :=
  (pyWords s).length

/-- Python `str.splitlines()` (handles `\n`, `\r`, `\r\n`; no trailing
empty line). -/
def splitLinesGo : List Char → List Char → List (List Char)
  | [], acc => if acc.isEmpty then [] else [acc.reverse]
  | '\r' :: '\n' :: rest, acc => acc.reverse :: splitLinesGo rest []
  | '\r' :: rest, acc => acc.reverse :: splitLinesGo rest []
  | '\n' :: rest, acc => acc.reverse :: splitLinesGo rest []
  | c :: rest, acc => splitLinesGo rest (c :: acc)

/-- Python `s.splitlines()`. -/
def pySplitLines (s : String) : List String :=
  (splitLinesGo s.data []).map String.mk

/-- One pass of `re.sub(r"\n{3,}", "\n\n", ...)`: `k` pending newlines seen. -/
def collapseGo : Nat → List Char → List Char
  | k, [] => if k ≥ 3 then ['\n', '\n'] else List.replicate k '\n'
  | k, c :: cs =>
    if c == '\n' then collapseGo (k + 1) cs
    else (if k ≥ 3 then ['\n', '\n'] else List.replicate k '\n') ++ c :: collapseGo 0 cs

/-- `re.sub(r"\n{3,}", "\n\n", s)`: collapse runs of ≥ 3 newlines to 2. -/
def collapseNewlines (s : String) : String :=
  String.mk (collapseGo 0 s.data)

/-- Python `str.title()` helper: `prevAlpha` records whether the previous
character was alphabetic. -/
def pyTitleGo : Bool → List Char → List Char
  | _, [] => []
  | prevAlpha, c :: cs =>
    (if c.isAlpha then (if prevAlpha then c.toLower else c.toUpper) else c)
      :: pyTitleGo c.isAlpha cs

/-- Python `str.title()`. -/
def pyTitle (s : String) : String :=
  String.mk (pyTitleGo false s.data)

/-! ## `urllib.parse.urlparse`, restricted to the fields the code reads -/
/-- The components of `urllib.parse.urlparse` used by the source:
`scheme`, `netloc` and `path` (query and fragment are split off and
dropped, since the code never reads them). -/
structure UrlParts where
  scheme : String
  netloc : String
  path : String
deriving Repr, DecidableEq

/-- Can `c` appear in a URL scheme (after the leading letter)? -/
def isSchemeChar (c : Char) : Bool :=
  c.isAlphanum || c == '+' || c == '-' || c == '.'

/-- Modelled from `urllib.parse.urlparse`: split off the fragment, then
the scheme (lower-cased, as urllib does), then — only when the remainder
starts with `//` — the network location up to the next `/`, `?` or `#`,
and finally drop the query from the path.  This function only models the
successfully-returning path; CPython's `ValueError("Invalid IPv6 URL")`
path (an unbalanced bracket in the network location) is modelled
separately by `urlparseRaises`, and `fetch_post_py` raises it where the
source does. -/
def pyUrlparse (url : String) : UrlParts :=
  let noFrag := (pySplit url "#").headD ""
  let colonSplit := pySplit noFrag ":"
  let head := colonSplit.headD ""
  let hasScheme :=
    colonSplit.length ≥ 2 && head ≠ "" &&
    (head.data.headD ' ').isAlpha && head.data.all isSchemeChar
  let scheme := if hasScheme then pyLower head else ""
  let rest := if hasScheme then strDrop noFrag (head.length + 1) else noFrag
  if strStarts rest "//" then
    let afterSlashes := strDrop rest 2
    let netloc := String.mk (afterSlashes.data.takeWhile
      (fun c => c ≠ '/' && c ≠ '?' && c ≠ '#'))
    let tail := String.mk (afterSlashes.data.dropWhile
      (fun c => c ≠ '/' && c ≠ '?' && c ≠ '#'))
    let path := (pySplit tail "?").headD ""
    ⟨scheme, netloc, path⟩
  else
    ⟨scheme, "", (pySplit rest "?").headD ""⟩

/-! ## HTML documents as BeautifulSoup produces them -/
/-- A parsed HTML node: an element with tag, attributes and children, or a
text node.  A whole document is a `List HNode` (its top-level nodes). -/
inductive HNode where
  | elem (tag : String) (attrs : List (String × String)) (children : List HNode)
  | text (s : String)
deriving Repr

/-- Tag name of an element node. -/
def HNode.tagOf : HNode → Option String
  | .elem t _ _ => some t
  | .text _ => none

/-- Children of an element node (a text node has none). -/
def HNode.childrenOf : HNode → List HNode
  | .elem _ _ cs => cs
  | .text _ => []

/-- Attribute lookup (first binding wins, as in HTML). -/
def HNode.attr (n : HNode) (key : String) : Option String :=
  match n with
  | .elem _ attrs _ => (attrs.find? (fun p => p.1 == key)).map (·.2)
  | .text _ => none

mutual
/-- All text-node strings in a node's subtree, in document order
(BeautifulSoup `get_text` collection order). -/
def HNode.texts : HNode → List String
  | .text s => [s]
  | .elem _ _ cs => textsOfList cs
/-- Text-node strings of a node list, in document order. -/
def textsOfList : List HNode → List String
  | [] => []
  | n :: rest => n.texts ++ textsOfList rest
end

mutual
/-- All element nodes in a subtree (the node itself included when it
matches), pre-order = document order. -/
def collectNode (p : HNode → Bool) : HNode → List HNode
  | .text _ => []
  | .elem t a cs =>
    (if p (.elem t a cs) then [HNode.elem t a cs] else []) ++ collectList p cs
/-- All matching element nodes under a node list, document order. -/
def collectList (p : HNode → Bool) : List HNode → List HNode
  | [] => []
  | n :: rest => collectNode p n ++ collectList p rest
end

/-- BeautifulSoup `get_text(strip=True)` over a scope (a node's children
or a document's top-level nodes): strings stripped, empties dropped,
joined with no separator. -/
def getTextStripJoin (scope : List HNode) : String :=
  joinWith "" ((textsOfList scope).map pyTrim |>.filter (fun t => t ≠ ""))

/-- BeautifulSoup `get_text(separator="\n", strip=True)` over a scope. -/
def getTextNlStrip (scope : List HNode) : String :=
  joinWith "\n" ((textsOfList scope).map pyTrim |>.filter (fun t => t ≠ ""))

/-- `tag.get_text(strip=True)` for a single node. -/
def HNode.getTextStrip (n : HNode) : String :=
  match n with
  | .text s => pyTrim s
  | .elem _ _ cs => getTextStripJoin cs

/-- Does a node carry CSS class `c` (the space-separated `class`
attribute contains it)? -/
def HNode.hasClass (n : HNode) (c : String) : Bool :=
  match n.attr "class" with
  | some v => (pyWords v).contains c
  | none => false

/-- Matching for the restricted CSS selectors the source uses: `.class`,
`#id`, or a bare tag name. -/
def selMatch (sel : String) (n : HNode) : Bool :=
  if strStarts sel "." then n.hasClass (strDrop sel 1)
  else if strStarts sel "#" then n.attr "id" == some (strDrop sel 1)
  else n.tagOf == some sel

/-- `soup.select_one(sel)`: first matching element in document order. -/
def selectOne (doc : List HNode) (sel : String) : Option HNode :=
  (collectList (selMatch sel) doc).head?

/-- First element with the given tag under the scope (`soup.find(tag)` /
`soup.body` / `soup.title`). -/
def findTag (doc : List HNode) (tag : String) : Option HNode :=
  (collectList (fun n => n.tagOf == some tag) doc).head?

/-! ## content_fetcher.py : data model -/
/-- An extracted link `{"text": ..., "href": ...}`. -/
structure LinkItem where
  text : String
  href : String
deriving Repr, DecidableEq

/-- An extracted heading `{"level": "h2"|"h3", "text": ...}`. -/
structure Heading where
  level : String
  text : String
deriving Repr, DecidableEq

/-- The dict `fetch_post` returns.  The success dict carries every content
field and `error = None`; the failure dict carries only `url` and `error`.
Optional fields model dict keys that may be absent. -/
structure PostDict where
  url : String
  slug : Option String := none
  title : Option String := none
  headings : Option (List Heading) := none
  body_text : Option String := none
  internal_links : Option (List LinkItem) := none
  external_links : Option (List LinkItem) := none
  word_count : Option Nat := none
  error : Option String := none
deriving Repr, DecidableEq

/-- An HTTP response as `fetch_post` observes it: the status code, the raw
body text (`resp.text`, used by the blocked-page screen) and the parsed
document `BeautifulSoup(resp.text)` (top-level nodes). -/
structure Response where
  status : Nat
  text : String
  doc : List HNode
deriving Repr

/-- Outcome of one `requests.get` call: a raised exception (connection
error, timeout, ...) with its message, or a response. -/
inductive Attempt where
  | exc (msg : String)
  | resp (r : Response)
deriving Repr

/-- The first entry of the WordPress REST API JSON array, at the level the
code reads it: the raw rendered title string, its parse (for the
entity-stripping pass), the raw rendered content HTML (for the emptiness
check) and its parse. -/
structure WpPost where
  titleRendered : String
  titleDoc : List HNode
  contentRendered : String
  contentDoc : List HNode
deriving Repr

/-- Environment for `fetch_post`: the response of the direct GET per
header-set index, and the WordPress API call outcome (`none` models any
exception — network error, non-2xx via `raise_for_status`, or JSON
failure — as well as a non-list body, all of which `_try_wp_api`
swallows to `None`). -/
structure CFEnv where
  direct : Nat → Attempt
  wp : Option (List WpPost)

/-- Network events of the content fetcher, for stating which calls are
attempted. -/
inductive FEv where
  | direct (i : Nat)
  | wpTry
  | wpFetch
deriving Repr, DecidableEq

/-! ## content_fetcher.py : functions -/
/-- The fixed bot-challenge signal list of `_is_blocked_page`. -/
def blockSignals : List String :=
  ["just a moment", "checking your browser", "cf-challenge",
   "challenge-platform", "turnstile", "ray-id"]

/-- `_is_blocked_page(html)`: any signal occurs in the lower-cased first
5000 characters. -/
def isBlockedPage (html : String) : Bool :=
  let lower := pyLower (strTake html 5000)
  blockSignals.any (fun s => strHasSub lower s)

/-- Classification of one header-profile attempt, mirroring the loop body
of `fetch_post`: a raised `requests` exception, a `raise_for_status`
failure (4xx/5xx), a blocked challenge page, or an accepted response. -/
inductive AttemptClass where
  | netErr (msg : String)
  | httpErr (code : Nat)
  | blockedPage
  | accepted (r : Response)
deriving Repr

/-- The per-profile branch of `fetch_post`'s header-rotation loop:
`raise_for_status()` runs first (it raises exactly for 4xx/5xx), then the
blocked-page screen, then acceptance. -/
def classifyAttempt : Attempt → AttemptClass
  | .exc m => .netErr m
  | .resp r =>
    if 400 ≤ r.status && r.status < 600 then .httpErr r.status
    else if isBlockedPage r.text then .blockedPage
    else .accepted r

/-- The `str(e)` message recorded for a `raise_for_status` failure. -/
def httpErrMsg (code : Nat) (url : String) : String :=
  toString code ++ " Error for url: " ++ url

/-- The message recorded when the challenge screen fires. -/
def blockedMsg : String :=
  "Cloudflare blocked the request (challenge page returned)"

/-- The header-rotation loop of `fetch_post` over the header-set indices:
returns the accepted response (if any), the final `last_error`, and the
attempted request events. -/
def headerLoop (env : CFEnv) (url : String) :
    Option String → List Nat → Option Response × Option String × List FEv
  | lastError, [] => (none, lastError, [])
  | lastError, i :: rest =>
    match classifyAttempt (env.direct i) with
    | .accepted r => (some r, lastError, [.direct i])
    | .netErr m =>
      let t := headerLoop env url (some m) rest
      (t.1, t.2.1, .direct i :: t.2.2)
    | .httpErr code =>
      let t := headerLoop env url (some (httpErrMsg code url)) rest
      (t.1, t.2.1, .direct i :: t.2.2)
    | .blockedPage =>
      let t := headerLoop env url (some blockedMsg) rest
      (t.1, t.2.1, .direct i :: t.2.2)

/-- The body of `_parse_content`'s link loop for one anchor: skip empty,
fragment and mailto hrefs; internal (`some (true, ·)`) when the domain
occurs in the href (Python substring test `domain in href`) or the href
is root-relative; external (`some (false, ·)`) when it starts with
`"http"`; every other href is dropped (`none`). -/
def linkClass (domain : String) (a : HNode) : Option (Bool × LinkItem) :=
  let href := (a.attr "href").getD ""
  let txt := a.getTextStrip
  if href == "" || strStarts href "#" || strStarts href "mailto:" then none
  else if !(domain == "") && strHasSub href domain then some (true, ⟨txt, href⟩)
  else if strStarts href "/" then some (true, ⟨txt, href⟩)
  else if strStarts href "http" then some (false, ⟨txt, href⟩)
  else none

/-- The link-classification loop of `_parse_content` over the anchors of
the content region, in document order, appending to the internal and
external lists. -/
def classifyLinks (domain : String) : List HNode → List LinkItem × List LinkItem
  | [] => ([], [])
  | a :: rest =>
    let res := classifyLinks domain rest
    match linkClass domain a with
    | some (true, l) => (l :: res.1, res.2)
    | some (false, l) => (res.1, l :: res.2)
    | none => res

/-- The anchors `_parse_content` iterates over:
`content_soup.find_all("a", href=True)` — `a` elements with an `href`
attribute, in document order. -/
def anchorsOf (scope : List HNode) : List HNode :=
  collectList (fun n => n.tagOf == some "a" && (n.attr "href").isSome) scope

/-- `_parse_content(url, slug, title, content_soup, domain)`: headings,
classified links, normalized body text and word count of the content
region (given by its scope: the region's child nodes, or a whole
document's top-level nodes). -/
def parseContent (url slug title : String) (scope : List HNode) (domain : String) :
    PostDict :=
  let headings := (collectList
      (fun n => n.tagOf == some "h2" || n.tagOf == some "h3") scope).map
    (fun n => Heading.mk (n.tagOf.getD "") n.getTextStrip)
  let links := classifyLinks domain (anchorsOf scope)
  let bodyText := collapseNewlines (getTextNlStrip scope)
  { url := url
    slug := some slug
    title := some title
    headings := some headings
    body_text := some bodyText
    internal_links := some links.1
    external_links := some links.2
    word_count := some (pyWordCount bodyText)
    error := none }

/-- The candidate content slug `_try_wp_api` derives from the URL:
`path.split("/")[-1] if "/" in path else ""` after `rstrip("/")`. -/
def wpSlug (url : String) : String :=
  let path := rstripSlashes (pyUrlparse url).path
  if strHasSub path "/" then (pySplit path "/").getLastD "" else ""

/-- The entity-stripping pass on the rendered title:
`BeautifulSoup(title).get_text(strip=True)` when the title is non-empty. -/
def wpTitle (wp : WpPost) : String :=
  if wp.titleRendered ≠ "" then getTextStripJoin wp.titleDoc else wp.titleRendered

/-- `_try_wp_api(url)`: derive the candidate slug from the URL path; when
non-empty, consult the REST endpoint; on a non-empty post list with
non-empty rendered content, entity-strip the title and parse the rendered
content with `_parse_content`.  Also returns the network events. -/
def tryWpApi (env : CFEnv) (url : String) : Option PostDict × List FEv :=
  if wpSlug url == "" then (none, [.wpTry])
  else
    match env.wp with
    | none => (none, [.wpTry, .wpFetch])
    | some [] => (none, [.wpTry, .wpFetch])
    | some (wp :: _) =>
      if wp.contentRendered == "" then (none, [.wpTry, .wpFetch])
      else
        (some (parseContent url (wpSlug url) (wpTitle wp) wp.contentDoc
           (pyUrlparse url).netloc),
         [.wpTry, .wpFetch])

/-- The content selectors of the fetcher, in priority order. -/
def CONTENT_SELECTORS : List String :=
  [".post-content", ".entry-content", ".post-body", ".article-body",
   ".blog-post", ".single-post", "#content", ".content", "article", "main"]

/-- The selector loop of `fetch_post`: the first selector whose
`select_one` match has at least 100 words (`get_text(strip=True)` then
`split()`), continuing past under-threshold matches. -/
def selectLoop (doc : List HNode) : List String → Option HNode
  | [] => none
  | sel :: rest =>
    match selectOne doc sel with
    | some n =>
      if 100 ≤ pyWordCount (getTextStripJoin n.childrenOf) then some n
      else selectLoop doc rest
    | none => selectLoop doc rest

/-- The content region `fetch_post` settles on: the selector winner's
children, else the body's children, else the whole document. -/
def pageScope (doc : List HNode) : List HNode :=
  match selectLoop doc CONTENT_SELECTORS with
  | some n => n.childrenOf
  | none =>
    match findTag doc "body" with
    | some b => b.childrenOf
    | none => doc

/-- The normalized body text of the chosen content region. -/
def pageBodyText (doc : List HNode) : String :=
  collapseNewlines (getTextNlStrip (pageScope doc))

/-- Its word count: the value the 50-word usability gate tests. -/
def pageWordCount (doc : List HNode) : Nat :=
  pyWordCount (pageBodyText doc)

/-- The page title: first `h1`, else the document `<title>`, else `""`. -/
def pageTitle (doc : List HNode) : String :=
  match findTag doc "h1" with
  | some h => h.getTextStrip
  | none =>
    match findTag doc "title" with
    | some t => t.getTextStrip
    | none => ""

/-- The static suffix appended to every failure reason. -/
def failSuffix : String :=
  ". This site may be blocking cloud-hosted requests. Try pasting the post content manually."

/-- The failure dict `fetch_post` returns when every strategy is
exhausted: only `url` and `error`, the reason combining the last recorded
diagnostic with the static suggestion. -/
def failPost (url : String) (lastErr : Option String) : PostDict :=
  { url := url, error := some ((lastErr.getD "Failed to fetch the page") ++ failSuffix) }

/-- Attempt 2 and the terminal failure of `fetch_post`: try the WordPress
REST fallback; accept its result only above the 50-word floor; otherwise
return the failure dict built from `last_error`. -/
def wpFallback (env : CFEnv) (url : String) (lastErr : Option String)
    (evs : List FEv) : PostDict × List FEv :=
  match tryWpApi env url with
  | (some w, evs2) =>
    if 50 ≤ w.word_count.getD 0 then (w, evs ++ evs2)
    else (failPost url lastErr, evs ++ evs2)
  | (none, evs2) => (failPost url lastErr, evs ++ evs2)

/-- The diagnostic recorded when direct extraction stays under 50 words. -/
def fewWordsMsg (wc : Nat) : String :=
  "Page returned only " ++ toString wc ++ " words (likely blocked by Cloudflare or requires JavaScript)"

/-- `fetch_post(url)`: header-rotation fetch, content-region selection,
usability gate, WordPress fallback, terminal failure; paired with the
network events performed. -/
def fetch_post (env : CFEnv) (url : String) : PostDict × List FEv :=
  let parsed := pyUrlparse url
  let domain := parsed.netloc
  let path := rstripSlashes parsed.path
  let slug := if strHasSub path "/" then (pySplit path "/").getLastD ""
              else (if path == "" then "post" else path)
  match headerLoop env url none [0, 1] with
  | (some r, _, evs) =>
    if 50 ≤ pageWordCount r.doc then
      (parseContent url slug (pageTitle r.doc) (pageScope r.doc) domain, evs)
    else wpFallback env url (some (fewWordsMsg (pageWordCount r.doc))) evs
  | (none, lastErr, evs) => wpFallback env url lastErr evs

/-! ## Shape predicates for the fetch result -/
/-- The success shape: `error` is `None` and every content field is
present. -/
def okShape (d : PostDict) : Prop :=
  d.error = none ∧ d.slug.isSome = true ∧ d.title.isSome = true ∧
  d.headings.isSome = true ∧ d.body_text.isSome = true ∧
  d.internal_links.isSome = true ∧ d.external_links.isSome = true ∧
  d.word_count.isSome = true

/-! ## Characterization of the link classification -/
/-- The anchors the loop appends to `internal_links`. -/
def internalOf (domain : String) (a : HNode) : Option LinkItem :=
  match linkClass domain a with
  | some (true, l) => some l
  | _ => none

/-- The anchors the loop appends to `external_links`. -/
def externalOf (domain : String) (a : HNode) : Option LinkItem :=
  match linkClass domain a with
  | some (false, l) => some l
  | _ => none

/-- An href passes the skip-filter: non-empty, no `#` start, no `mailto:`
start. -/
def linkEligible (href : String) : Bool :=
  !(href == "" || strStarts href "#" || strStarts href "mailto:")

/-- The condition under which the code files a link as internal: the
source host non-empty and a substring of the href, or a root-relative
href. -/
def internalCond (domain href : String) : Bool :=
  (!(domain == "") && strHasSub href domain) || strStarts href "/"

/-- The condition under which the code files a link as external: not
internal and the href starts with `"http"`. -/
def externalCond (domain href : String) : Bool :=
  !internalCond domain href && strStarts href "http"

/-! ## Concrete environments for counterexamples and witnesses -/
/-- Sixty words of body filler (enough to pass the 50-word gate). -/
def fillerWords : String :=
  joinWith " " (List.replicate 60 "word")

/-- A page whose only anchor is an absolute URL on a *different* host that
happens to contain the source host as a substring. -/
def linkSubDoc : List HNode :=
  [.elem "html" [] [.elem "body" []
    [.text fillerWords,
     .elem "a" [("href", "https://evil.com/?from=example.com")] [.text "evil link"]]]]

def linkSubEnv : CFEnv :=
  { direct := fun _ => .resp ⟨200, "page", linkSubDoc⟩, wp := none }

def linkSubUrl : String := "https://example.com/blog/post"

/-- A page whose only anchor is a relative (non-root) href that contains
the source host as a substring. -/
def relTrapDoc : List HNode :=
  [.elem "html" [] [.elem "body" []
    [.text fillerWords,
     .elem "a" [("href", "docs/example.com/page")] [.text "old link"]]]]

def relTrapEnv : CFEnv :=
  { direct := fun _ => .resp ⟨200, "page", relTrapDoc⟩, wp := none }

def relTrapUrl : String := "https://example.com/blog/post2"

/-- A concrete dropped anchor for the C10 witness. -/
def plainRelAnchor : HNode :=
  .elem "a" [("href", "page.html")] [.text "plain link"]

/-- A page whose content region yields only two words. -/
def lowWordsDoc : List HNode := [.text "hello world"]

def lowWordsEnv : CFEnv :=
  { direct := fun _ => .resp ⟨200, "short", lowWordsDoc⟩, wp := none }

def lowWordsUrl : String := "https://example.com/blog/thin-post"

/-! ## XML documents as ElementTree produces them -/
/-- A parsed XML element: tag, attributes, the text directly after the
start tag (`None` when empty, as in ElementTree), and child elements. -/
structure XmlElem where
  tag : String
  attrs : List (String × String)
  text : Option String
  children : List XmlElem
deriving Repr

/-- Characters allowed in an XML name by this reader. -/
def isXmlNameChar (c : Char) : Bool :=
  c.isAlphanum || c == '_' || c == '-' || c == '.' || c == ':'

/-- Drop leading whitespace. -/
def skipWsL (l : List Char) : List Char :=
  l.dropWhile Char.isWhitespace

/-- Attribute list of a start tag: `name="value"` or `name='value'`
pairs, ending right before `>` or `/>`. -/
def parseAttrs : Nat → List Char → Option (List (String × String) × List Char)
  | 0, _ => none
  | fuel + 1, l =>
    match skipWsL l with
    | [] => none
    | '>' :: r => some ([], '>' :: r)
    | '/' :: r => some ([], '/' :: r)
    | l1 =>
      let nm := l1.takeWhile isXmlNameChar
      let r1 := l1.dropWhile isXmlNameChar
      if nm.isEmpty then none
      else
        match skipWsL r1 with
        | '=' :: r2 =>
          match skipWsL r2 with
          | '"' :: r3 =>
            let v := r3.takeWhile (· ≠ '"')
            (match r3.dropWhile (· ≠ '"') with
             | '"' :: r4 =>
               (parseAttrs fuel r4).map
                 (fun p => ((String.mk nm, String.mk v) :: p.1, p.2))
             | _ => none)
          | '\'' :: r3 =>
            let v := r3.takeWhile (· ≠ '\'')
            (match r3.dropWhile (· ≠ '\'') with
             | '\'' :: r4 =>
               (parseAttrs fuel r4).map
                 (fun p => ((String.mk nm, String.mk v) :: p.1, p.2))
             | _ => none)
          | _ => none
        | _ => none

/-- Parse a sequence of sibling elements up to a closing tag `</` or the
end of input; inter-element text is consumed (ElementTree keeps it as
`tail`, which the source never reads).  Returns the siblings and the rest
of the input (starting at `</` when one stopped the scan). -/
def parseNodes : Nat → List Char → Option (List XmlElem × List Char)
  | 0, _ => none
  | fuel + 1, l =>
    match l with
    | [] => some ([], [])
    | '<' :: '/' :: rest => some ([], '<' :: '/' :: rest)
    | '<' :: r1 =>
      let nm := r1.takeWhile isXmlNameChar
      let r2 := r1.dropWhile isXmlNameChar
      if nm.isEmpty then none
      else
        match parseAttrs (r2.length + 1) r2 with
        | none => none
        | some (attrs, r3) =>
          match r3 with
          | '/' :: '>' :: r4 =>
            (parseNodes fuel (r4.dropWhile (· ≠ '<'))).map
              (fun p => (⟨String.mk nm, attrs, none, []⟩ :: p.1, p.2))
          | '>' :: r4 =>
            let txt := r4.takeWhile (· ≠ '<')
            let r5 := r4.dropWhile (· ≠ '<')
            (match parseNodes fuel r5 with
             | none => none
             | some (cs, r6) =>
               match r6 with
               | '<' :: '/' :: r7 =>
                 let cnm := r7.takeWhile isXmlNameChar
                 let r8 := r7.dropWhile isXmlNameChar
                 if cnm = nm then
                   match skipWsL r8 with
                   | '>' :: r9 =>
                     (parseNodes fuel (r9.dropWhile (· ≠ '<'))).map
                       (fun p =>
                         (⟨String.mk nm, attrs,
                           (if txt.isEmpty then none else some (String.mk txt)),
                           cs⟩ :: p.1, p.2))
                   | _ => none
                 else none
               | _ => none)
          | _ => none
    | _ => none

/-- Drop an XML prolog `<?xml ... ?>` if present. -/
def dropProlog : List Char → List Char
  | '?' :: '>' :: rest => rest
  | _ :: rest => dropProlog rest
  | [] => []

mutual
/-- ElementTree's default-namespace resolution: an element in the scope
of a default `xmlns="ns"` declaration gets the tag `\x7bns\x7dname`. -/
def applyNs (cur : Option String) : XmlElem → XmlElem
  | ⟨tag, attrs, txt, children⟩ =>
    let cur2 := match attrs.lookup "xmlns" with
                | some v => some v
                | none => cur
    ⟨(match cur2 with
      | some v => "\x7b" ++ v ++ "\x7d" ++ tag
      | none => tag),
     attrs, txt, applyNsList cur2 children⟩
/-- Namespace resolution over a child list. -/
def applyNsList (cur : Option String) : List XmlElem → List XmlElem
  | [] => []
  | e :: rest => applyNs cur e :: applyNsList cur rest
end

/-- Modelled from `xml.etree.ElementTree.fromstring`: skip whitespace and
an optional prolog, parse exactly one root element, demand nothing but
whitespace afterwards, and resolve default namespaces; `none` models
`ET.ParseError`. -/
def fromstring (s : String) : Option XmlElem :=
  let l0 := skipWsL s.data
  let l1 :=
    match l0 with
    | '<' :: '?' :: rest => skipWsL (dropProlog rest)
    | _ => l0
  match parseNodes (l1.length + 1) l1 with
  | some ([root], rest) =>
    if (skipWsL rest).isEmpty then some (applyNs none root) else none
  | _ => none

/-! ## sitemap_crawler.py : data model -/
/-- A discovered site page `{"url": ..., "slug": ..., "title": ...}`. -/
structure SitePage where
  url : String
  slug : String
  title : String
deriving Repr, DecidableEq

/-- Environment for the crawler: the robots.txt response (status and
body; `none` models a raised exception) and, per URL, the sitemap GET
(`none` models any exception, including non-2xx via
`raise_for_status`). -/
structure CrawlEnv where
  robots : String → Option (Nat × String)
  sitemap : String → Option String

/-- Network events of the crawler: the robots.txt request, a sitemap
fetch, and the start of a candidate try in `get_site_pages`'s loop. -/
inductive CrawlEv where
  | robotsGet (url : String)
  | fetch (url : String)
  | cand (url : String)
deriving Repr, DecidableEq

/-- The per-domain cache (`_cache` / `session_state`): an association
list, later bindings shadowing earlier ones. -/
abbrev Cache := List (String × List SitePage)

/-- A cache write `cache[key] = v`. -/
def cachePut (c : Cache) (k : String) (v : List SitePage) : Cache :=
  (k, v) :: c

/-- The `session_state is not None and key in session_state` check plus
read. -/
def sessionLookup (ss : Option Cache) (k : String) : Option (List SitePage) :=
  match ss with
  | some c => c.lookup k
  | none => none

/-- Write into the session cache when one was supplied. -/
def sessionPut (ss : Option Cache) (k : String) (v : List SitePage) : Option Cache :=
  ss.map (fun c => cachePut c k v)

/-! ## sitemap_crawler.py : functions -/
/-- The namespace handling of `_parse_sitemap_xml`: when the root tag
starts with `"\x7b"`, the `"\x7bns\x7d"` part is reused for child lookups. -/
def nsOf (root : XmlElem) : String :=
  if strStarts root.tag "\x7b" then ((pySplit root.tag "\x7d").headD "") ++ "\x7d"
  else ""

/-- `root.findall(tag)`: direct children whose tag matches. -/
def childrenTagged (t : String) (e : XmlElem) : List XmlElem :=
  e.children.filter (fun c => c.tag == t)

/-- `elem.find(tag)`: first direct child whose tag matches. -/
def findChild (e : XmlElem) (t : String) : Option XmlElem :=
  e.children.find? (fun c => c.tag == t)

/-- A `<sitemap>` child's usable `<loc>` URL: present, non-empty text,
stripped (`if loc is not None and loc.text:` then `.strip()`). -/
def childLoc (ns : String) (sm : XmlElem) : Option String :=
  match findChild sm (ns ++ "loc") with
  | none => none
  | some loc =>
    match loc.text with
    | none => none
    | some t => if t == "" then none else some (pyTrim t)

/-- One `<url>` entry of a url-set turned into a `SitePage`: path with
trailing slash stripped (default `"/"`), slug forced to start with `"/"`,
title from the last slug segment with `-`/`_` as spaces, title-cased. -/
def pageOfLoc (pageUrl : String) : SitePage :=
  let path0 := rstripSlashes (pyUrlparse pageUrl).path
  let path := if path0 == "" then "/" else path0
  let slug := if strStarts path "/" then path else "/" ++ path
  let raw := pyTrim (pyReplace (pyReplace ((pySplit slug "/").getLastD "") "-" " ") "_" " ")
  let title := if raw == "" then slug else pyTitle raw
  ⟨pageUrl, slug, title⟩

/-- The url-set branch of `_parse_sitemap_xml`: every `<url>` child with
a usable `<loc>`, in document order. -/
def urlsetPages (ns : String) (root : XmlElem) : List SitePage :=
  (childrenTagged (ns ++ "url") root).filterMap (fun urlElem =>
    match childLoc ns urlElem with
    | none => none
    | some u => some (pageOfLoc u))

/-- `_parse_sitemap_xml(xml_content, base_domain, depth)`, with the
recursive `_fetch_and_parse(loc, depth+1)` call inlined (the fetch and
its guard), paired with the network events.  `fuel` only bounds the
recursion for Lean; the `depth > 3` guard cuts every chain reachable from
`fetchAndParse env 4 0` before fuel runs out. -/
def parseSitemapXml (env : CrawlEnv) : Nat → Nat → String → List SitePage × List CrawlEv
  | fuel, depth, s =>
    if depth > 3 then ([], [])
    else
      match fromstring s with
      | none => ([], [])
      | some root =>
        if strHasSub root.tag "sitemapindex" then
          match fuel with
          | 0 => ([], [])
          | f + 1 =>
            let parts := (childrenTagged (nsOf root ++ "sitemap") root).map
              (fun sm =>
                match childLoc (nsOf root) sm with
                | none => ([], [])
                | some u =>
                  match env.sitemap u with
                  | none => ([], [CrawlEv.fetch u])
                  | some s2 =>
                    let r := parseSitemapXml env f (depth + 1) s2
                    (r.1, CrawlEv.fetch u :: r.2))
            ((parts.map Prod.fst).flatten, (parts.map Prod.snd).flatten)
        else (urlsetPages (nsOf root) root, [])

/-- `_fetch_and_parse(sitemap_url, base_domain, depth)`: fetch (any
exception yields `[]`) and parse. -/
def fetchAndParse (env : CrawlEnv) (fuel depth : Nat) (url : String) :
    List SitePage × List CrawlEv :=
  match env.sitemap url with
  | none => ([], [CrawlEv.fetch url])
  | some s =>
    let r := parseSitemapXml env fuel depth s
    (r.1, CrawlEv.fetch url :: r.2)

/-- `if not domain.startswith("http"): domain = "https://" + domain`
then `rstrip("/")`. -/
def normalizeDomain (domain : String) : String :=
  rstripSlashes (if strStarts domain "http" then domain else "https://" ++ domain)

/-- The robots.txt scan of `get_site_pages`: on a 200 response, each line
whose lower-cased form starts with `sitemap:` contributes the part after
the first colon, stripped, in file order; failures are swallowed. -/
def robotsSitemaps (env : CrawlEnv) (domain : String) : List String × List CrawlEv :=
  match env.robots (domain ++ "/robots.txt") with
  | none => ([], [CrawlEv.robotsGet (domain ++ "/robots.txt")])
  | some (status, text) =>
    if status == 200 then
      ((pySplitLines text).filterMap (fun line =>
        if strStarts (pyLower line) "sitemap:" then
          some (pyTrim (joinWith ":" ((pySplit line ":").tail)))
        else none),
       [CrawlEv.robotsGet (domain ++ "/robots.txt")])
    else ([], [CrawlEv.robotsGet (domain ++ "/robots.txt")])

/-- The four conventional fallback candidates, in fixed order. -/
def fallbackCandidates (domain : String) : List String :=
  [domain ++ "/sitemap.xml", domain ++ "/sitemap_index.xml",
   domain ++ "/sitemap-index.xml", domain ++ "/wp-sitemap.xml"]

/-- The candidate loop of `get_site_pages`: try each candidate in order,
stop at the first whose parse yields at least one page. -/
def tryCandidates (env : CrawlEnv) : List String → List SitePage × List CrawlEv
  | [] => ([], [])
  | c :: rest =>
    let r := fetchAndParse env 4 0 c
    if r.1.isEmpty then
      let rr := tryCandidates env rest
      (rr.1, (CrawlEv.cand c :: r.2) ++ rr.2)
    else (r.1, CrawlEv.cand c :: r.2)

/-- The cache-miss path of `get_site_pages`: robots scan, candidate list,
candidate loop. -/
def resolveFresh (env : CrawlEnv) (domain : String) : List SitePage × List CrawlEv :=
  let rb := robotsSitemaps env domain
  let tc := tryCandidates env (rb.1 ++ fallbackCandidates domain)
  (tc.1, rb.2 ++ tc.2)

/-- `get_site_pages(domain, session_state)`: normalization, dual-scope
cache lookup (session first), resolution on miss, write-back into both
caches.  Returns `(pages, session cache, module cache, events)`. -/
def get_site_pages (env : CrawlEnv) (domain0 : String) (sessionState : Option Cache)
    (cache : Cache) : List SitePage × Option Cache × Cache × List CrawlEv :=
  let key := "sitemap_" ++ normalizeDomain domain0
  match sessionLookup sessionState key with
  | some v => (v, sessionState, cache, [])
  | none =>
    match cache.lookup key with
    | some v => (v, sessionState, cache, [])
    | none =>
      let r := resolveFresh env (normalizeDomain domain0)
      (r.1, sessionPut sessionState key r.1, cachePut cache key r.1, r.2)

/-! ## Spec-side formulations for the crawler claims -/
/-- The leaf url-set documents reachable from a sitemap text, in document
order, following the spec's description: recurse through sitemap-index
children, cutting every branch at depth > 3; a url-set document is a
leaf.  (Spec-side companion of `parseSitemapXml` for the refinement
claim.) -/
def leafUrlsetDocs (env : CrawlEnv) : Nat → Nat → String → List XmlElem
  | fuel, depth, s =>
    if depth > 3 then []
    else
      match fromstring s with
      | none => []
      | some root =>
        if strHasSub root.tag "sitemapindex" then
          match fuel with
          | 0 => []
          | f + 1 =>
            ((childrenTagged (nsOf root ++ "sitemap") root).map (fun sm =>
              match childLoc (nsOf root) sm with
              | none => []
              | some u =>
                match env.sitemap u with
                | none => []
                | some s2 => leafUrlsetDocs env f (depth + 1) s2)).flatten
        else [root]

/-- The spec's description of `parse`: the concatenation, in document
order, of the pages of all leaf url-set documents. -/
def specSitemapPages (env : CrawlEnv) (fuel depth : Nat) (s : String) : List SitePage :=
  ((leafUrlsetDocs env fuel depth s).map (fun root => urlsetPages (nsOf root) root)).flatten

/-- The candidate URLs tried by the `get_site_pages` loop, extracted from
an event list. -/
def candTried (evs : List CrawlEv) : List String :=
  evs.filterMap (fun e => match e with | CrawlEv.cand u => some u | _ => none)

/-- Number of candidates the loop tries: up to and including the first
winner, or all of them when none yields a page. -/
def winCount (env : CrawlEnv) (cands : List String) : Nat :=
  match cands.findIdx? (fun c => !(fetchAndParse env 4 0 c).1.isEmpty) with
  | some i => i + 1
  | none => cands.length

/-- Two successive `resolve` calls for the same domain, the second one
seeing the caches the first one left behind. -/
def resolveTwice (env : CrawlEnv) (domain0 : String) (ss : Option Cache) (mc : Cache) :
    (List SitePage × Option Cache × Cache × List CrawlEv) ×
    (List SitePage × Option Cache × Cache × List CrawlEv) :=
  let r1 := get_site_pages env domain0 ss mc
  (r1, get_site_pages env domain0 r1.2.1 r1.2.2.1)

/-! ## Concrete crawler fixtures -/
/-- A malformed sitemap (truncated tags). -/
def badXml : String := "<urlset><url>"

/-- An environment whose every request fails. -/
def emptyCrawlEnv : CrawlEnv := ⟨fun _ => none, fun _ => none⟩

def wsLeafXml : String :=
  "<urlset><url><loc>https://e.com/blog/my-post/</loc></url></urlset>"

def wsLeafXml2 : String :=
  "<urlset><url><loc>https://e.com/other_page</loc></url></urlset>"

def wsIdxXml : String :=
  "<sitemapindex><sitemap><loc>https://e.com/a.xml</loc></sitemap><sitemap><loc>https://e.com/b.xml</loc></sitemap></sitemapindex>"

/-- A site whose robots.txt declares a candidate that fails, and whose
`/sitemap.xml` is a sitemap index over two url-set leaves. -/
def crawlEnvW : CrawlEnv :=
  { robots := fun _ => some (200, "User-agent: *\nSitemap: https://e.com/custom.xml"),
    sitemap := fun u =>
      if u == "https://e.com/a.xml" then some wsLeafXml
      else if u == "https://e.com/b.xml" then some wsLeafXml2
      else if u == "https://e.com/sitemap.xml" then some wsIdxXml
      else none }

/-! ## Helper lemmas about the content fetcher -/
theorem parseContent_okShape (url slug title : String) (scope : List HNode)
    (domain : String) : okShape (parseContent url slug title scope domain) := by
  simp [parseContent, okShape]

theorem tryWpApi_okShape {env : CFEnv} {url : String} {w : PostDict}
    (h : (tryWpApi env url).1 = some w) : okShape w := by
  unfold tryWpApi at h
  split at h
  · simp at h
  · split at h
    · simp at h
    · simp at h
    · split at h
      · simp at h
      · simp only [Option.some.injEq] at h
        exact h ▸ parseContent_okShape _ _ _ _ _

theorem wpTry_mem_tryWpApi (env : CFEnv) (url : String) :
    FEv.wpTry ∈ (tryWpApi env url).2 := by
  unfold tryWpApi
  split
  · simp
  · split
    · simp
    · simp
    · split <;> simp

theorem wpFallback_fst (env : CFEnv) (url : String) (lastErr : Option String)
    (evs : List FEv) :
    (wpFallback env url lastErr evs).1 =
      match (tryWpApi env url).1 with
      | some w => if 50 ≤ w.word_count.getD 0 then w else failPost url lastErr
      | none => failPost url lastErr := by
  unfold wpFallback
  split
  case h_1 w evs2 heq =>
    rw [heq]
    by_cases h : 50 ≤ w.word_count.getD 0 <;> simp [h]
  case h_2 evs2 heq =>
    rw [heq]

theorem wpTry_mem_wpFallback (env : CFEnv) (url : String) (lastErr : Option String)
    (evs : List FEv) : FEv.wpTry ∈ (wpFallback env url lastErr evs).2 := by
  have h := wpTry_mem_tryWpApi env url
  unfold wpFallback
  split
  case h_1 w evs2 heq =>
    rw [heq] at h
    split <;> simp [List.mem_append]
    · exact Or.inr h
    · exact Or.inr h
  case h_2 evs2 heq =>
    rw [heq] at h
    simp only [List.mem_append]
    exact Or.inr h

/-! ## Substring monotonicity (for reasoning about composed messages) -/
theorem subAt_append {n xs : List Char} (ys : List Char)
    (h : subAt n xs = true) : subAt n (xs ++ ys) = true := by
  induction n generalizing xs with
  | nil => rfl
  | cons a as ih =>
    cases xs with
    | nil => simp [subAt] at h
    | cons x xt =>
      simp only [subAt, Bool.and_eq_true] at h ⊢
      exact ⟨h.1, ih h.2⟩

theorem hasSubList_nil_needle (l : List Char) : hasSubList [] l = true := by
  cases l with
  | nil => rfl
  | cons c rest => simp [hasSubList, subAt]

theorem hasSubList_append_left {n xs : List Char} (ys : List Char)
    (h : hasSubList n xs = true) : hasSubList n (xs ++ ys) = true := by
  induction xs with
  | nil =>
    cases n with
    | nil => exact hasSubList_nil_needle ys
    | cons a as => simp [hasSubList, subAt] at h
  | cons x xt ih =>
    simp only [hasSubList, Bool.or_eq_true] at h
    cases h with
    | inl h =>
      simp only [List.cons_append, hasSubList, Bool.or_eq_true]
      exact Or.inl (subAt_append ys h)
    | inr h =>
      simp only [List.cons_append, hasSubList, Bool.or_eq_true]
      exact Or.inr (ih h)

theorem hasSubList_append_right {n ys : List Char} (xs : List Char)
    (h : hasSubList n ys = true) : hasSubList n (xs ++ ys) = true := by
  induction xs with
  | nil => exact h
  | cons x xt ih =>
    simp only [List.cons_append, hasSubList, Bool.or_eq_true]
    exact Or.inr ih

theorem strHasSub_append_left (a b n : String) (h : strHasSub a n = true) :
    strHasSub (a ++ b) n = true :=
  hasSubList_append_left b.data h

theorem strHasSub_append_right (a b n : String) (h : strHasSub b n = true) :
    strHasSub (a ++ b) n = true :=
  hasSubList_append_right a.data h

theorem classifyLinks_eq (domain : String) (l : List HNode) :
    classifyLinks domain l =
      (l.filterMap (internalOf domain), l.filterMap (externalOf domain)) := by
  induction l with
  | nil => rfl
  | cons a rest ih =>
    simp only [classifyLinks, ih, List.filterMap_cons, internalOf, externalOf]
    rcases h : linkClass domain a with _ | ⟨b, li⟩
    · rfl
    · cases b <;> rfl

theorem linkClass_cond (domain : String) (a : HNode) :
    internalOf domain a =
      (if linkEligible ((a.attr "href").getD "") &&
          internalCond domain ((a.attr "href").getD "")
       then some ⟨a.getTextStrip, (a.attr "href").getD ""⟩ else none) ∧
    externalOf domain a =
      (if linkEligible ((a.attr "href").getD "") &&
          externalCond domain ((a.attr "href").getD "")
       then some ⟨a.getTextStrip, (a.attr "href").getD ""⟩ else none) := by
  unfold internalOf externalOf linkClass linkEligible internalCond externalCond
  cases h1 : ((a.attr "href").getD "") == "" <;>
    cases h2 : strStarts ((a.attr "href").getD "") "#" <;>
      cases h3 : strStarts ((a.attr "href").getD "") "mailto:" <;>
        cases h4 : (!(domain == "") && strHasSub ((a.attr "href").getD "") domain) <;>
          cases h5 : strStarts ((a.attr "href").getD "") "/" <;>
            cases h6 : strStarts ((a.attr "href").getD "") "http" <;>
              simp [internalCond, externalCond, h1, h2, h3, h4, h5, h6]

/-- C1 counterexample: on a page at host `example.com`, the anchor
`https://evil.com/?from=example.com` — an absolute URL on a different
host, not root-relative — lands in `internal_links` (and not in
`external_links`), because the code tests `domain in href` by substring
rather than comparing hosts. -/
theorem link_host_counterexample :
    ((fetch_post linkSubEnv linkSubUrl).1.internal_links.getD []).contains
        ⟨"evil link", "https://evil.com/?from=example.com"⟩ = true ∧
    ((fetch_post linkSubEnv linkSubUrl).1.external_links.getD []).contains
        ⟨"evil link", "https://evil.com/?from=example.com"⟩ = false ∧
    (pyUrlparse "https://evil.com/?from=example.com").netloc ≠
      (pyUrlparse linkSubUrl).netloc ∧
    strStarts "https://evil.com/?from=example.com" "/" = false := by
  refine ⟨by decide, by decide, by decide, by decide⟩

/-- C1 (amended): for every anchor with a non-empty, non-fragment,
non-mailto href, the extractor classifies it as internal exactly when the
source host is non-empty and occurs as a *substring* of the href or the
href is root-relative, and as external exactly when it is not internal
and the href starts with `"http"`; `internal_links` and `external_links`
list these in document order. -/
theorem link_classification_amended (url slug title domain : String)
    (scope : List HNode) :
    (parseContent url slug title scope domain).internal_links =
      some ((anchorsOf scope).filterMap (internalOf domain)) ∧
    (parseContent url slug title scope domain).external_links =
      some ((anchorsOf scope).filterMap (externalOf domain)) ∧
    ∀ a : HNode,
      internalOf domain a =
        (if linkEligible ((a.attr "href").getD "") &&
            internalCond domain ((a.attr "href").getD "")
         then some ⟨a.getTextStrip, (a.attr "href").getD ""⟩ else none) ∧
      externalOf domain a =
        (if linkEligible ((a.attr "href").getD "") &&
            externalCond domain ((a.attr "href").getD "")
         then some ⟨a.getTextStrip, (a.attr "href").getD ""⟩ else none) := by
  refine ⟨?_, ?_, fun a => linkClass_cond domain a⟩
  · simp [parseContent, classifyLinks_eq]
  · simp [parseContent, classifyLinks_eq]

/-- C10 counterexample: the relative, non-root, non-http anchor
`docs/example.com/page` is *not* omitted: it contains the source host as
a substring, so the code files it under `internal_links`. -/
theorem relative_link_counterexample :
    ((fetch_post relTrapEnv relTrapUrl).1.internal_links.getD []).contains
        ⟨"old link", "docs/example.com/page"⟩ = true ∧
    strStarts "docs/example.com/page" "/" = false ∧
    strStarts "docs/example.com/page" "http" = false := by
  refine ⟨by decide, by decide, by decide⟩

/-- C10 (amended): an anchor whose href is relative (does not start with
`"/"`), does not start with `"http"`, and does not contain the source
host as a substring, is silently dropped: it contributes to neither
`internal_links` nor `external_links`. -/
theorem relative_links_dropped (url slug title domain : String)
    (scope : List HNode) (a : HNode)
    (hdom : (!(domain == "") && strHasSub ((a.attr "href").getD "") domain) = false)
    (hroot : strStarts ((a.attr "href").getD "") "/" = false)
    (hhttp : strStarts ((a.attr "href").getD "") "http" = false) :
    internalOf domain a = none ∧ externalOf domain a = none ∧
    (parseContent url slug title scope domain).internal_links =
      some ((anchorsOf scope).filterMap (internalOf domain)) ∧
    (parseContent url slug title scope domain).external_links =
      some ((anchorsOf scope).filterMap (externalOf domain)) := by
  have hc := linkClass_cond domain a
  refine ⟨?_, ?_, by simp [parseContent, classifyLinks_eq],
    by simp [parseContent, classifyLinks_eq]⟩
  · rw [hc.1]
    simp [internalCond, hdom, hroot]
  · rw [hc.2]
    simp [externalCond, internalCond, hdom, hroot, hhttp]

/-! ## Claim theorems: usability gate, fallback and blocked detection -/
/-- The words/suffix messages mention both "blocked" and "JavaScript",
whatever the word count. -/
theorem fewWords_reason_mentions (wc : Nat) :
    strHasSub (fewWordsMsg wc ++ failSuffix) "blocked" = true ∧
    strHasSub (fewWordsMsg wc ++ failSuffix) "JavaScript" = true := by
  constructor <;>
  · apply strHasSub_append_left
    unfold fewWordsMsg
    apply strHasSub_append_right
    decide

/-- C2: whenever the direct-HTML path produces a response whose extracted
body stays under the 50-word floor, `fetch_post` attempts the WordPress
REST fallback before returning; the fallback result is returned as the
success exactly when its own word count reaches 50; otherwise the result
is the failure dict whose reason mentions "blocked" and "JavaScript". -/
theorem low_wordcount_wp_fallback (env : CFEnv) (url : String) (r : Response)
    (hresp : (headerLoop env url none [0, 1]).1 = some r)
    (hwc : pageWordCount r.doc < 50) :
    FEv.wpTry ∈ (fetch_post env url).2 ∧
    (∀ w, (tryWpApi env url).1 = some w → 50 ≤ w.word_count.getD 0 →
      (fetch_post env url).1 = w) ∧
    (∀ w, (tryWpApi env url).1 = some w → w.word_count.getD 0 < 50 →
      (fetch_post env url).1 =
        failPost url (some (fewWordsMsg (pageWordCount r.doc)))) ∧
    ((tryWpApi env url).1 = none →
      (fetch_post env url).1 =
        failPost url (some (fewWordsMsg (pageWordCount r.doc)))) ∧
    ((fetch_post env url).1.error = none ∨
      (strHasSub ((fetch_post env url).1.error.getD "") "blocked" = true ∧
       strHasSub ((fetch_post env url).1.error.getD "") "JavaScript" = true)) := by
  rcases hht : headerLoop env url none [0, 1] with ⟨ro, le, evs⟩
  rw [hht] at hresp
  simp only at hresp
  have hfp : fetch_post env url =
      wpFallback env url (some (fewWordsMsg (pageWordCount r.doc))) evs := by
    simp only [fetch_post, hht, hresp]
    rw [if_neg (by omega)]
  have hwpf : ∀ lastErr l, FEv.wpTry ∈ (wpFallback env url lastErr l).2 :=
    fun lastErr l => wpTry_mem_wpFallback env url lastErr l
  refine ⟨hfp ▸ hwpf _ _, ?_, ?_, ?_, ?_⟩
  · intro w hw h50
    rw [hfp, wpFallback_fst, hw]
    simp [h50]
  · intro w hw h50
    rw [hfp, wpFallback_fst, hw]
    simp [Nat.not_le.mpr h50]
  · intro hw
    rw [hfp, wpFallback_fst, hw]
  · rw [hfp, wpFallback_fst]
    cases hres : (tryWpApi env url).1 with
    | none =>
      right
      simpa [failPost] using fewWords_reason_mentions (pageWordCount r.doc)
    | some w =>
      by_cases h50 : 50 ≤ w.word_count.getD 0
      · simp only [h50, if_true]
        exact Or.inl (tryWpApi_okShape hres).1
      · right
        simp only [h50, if_false]
        simpa [failPost] using fewWords_reason_mentions (pageWordCount r.doc)

/-- C2 witness: a 200 response with a two-word body and no WordPress API
escalates to the fallback and ends in the failure dict. -/
theorem low_wordcount_wp_fallback_witness :
    FEv.wpTry ∈ (fetch_post lowWordsEnv lowWordsUrl).2 ∧
    (fetch_post lowWordsEnv lowWordsUrl).1 =
      failPost lowWordsUrl (some (fewWordsMsg (pageWordCount lowWordsDoc))) := by
  have h := low_wordcount_wp_fallback lowWordsEnv lowWordsUrl
    ⟨200, "short", lowWordsDoc⟩ rfl (by decide)
  exact ⟨h.1, h.2.2.2.1 rfl⟩

/-- C6 counterexample: a 403 response whose body is the challenge page
(`"Just a moment..."` well inside the first 5000 characters) is *not*
classified as blocked: `raise_for_status` fires first and the attempt is
recorded as an HTTP error. -/
theorem blocked_status_counterexample :
    isBlockedPage "Just a moment..." = true ∧
    classifyAttempt (.resp ⟨403, "Just a moment...", []⟩) = .httpErr 403 ∧
    classifyAttempt (.resp ⟨403, "Just a moment...", []⟩) ≠ .blockedPage := by
  refine ⟨by decide, rfl, ?_⟩
  intro h
  rw [show classifyAttempt (.resp ⟨403, "Just a moment...", []⟩) = .httpErr 403
    from rfl] at h
  exact AttemptClass.noConfusion h

/-- C6 (amended): for a response whose status passes `raise_for_status`
(outside 400–599), the fetch loop classifies it as blocked exactly when a
bot-challenge signal occurs, case-insensitively, within the first 5000
characters of the body; in particular `"just a moment"` in the lowered
5000-character prefix forces the blocked classification, and a body with
no signal in that prefix is never classified blocked. -/
theorem blocked_classification_amended (r : Response)
    (hst : (400 ≤ r.status && r.status < 600) = false) :
    (strHasSub (pyLower (strTake r.text 5000)) "just a moment" = true →
      classifyAttempt (.resp r) = .blockedPage) ∧
    ((∀ s ∈ blockSignals, strHasSub (pyLower (strTake r.text 5000)) s = false) →
      classifyAttempt (.resp r) ≠ .blockedPage) ∧
    (classifyAttempt (.resp r) = .blockedPage ↔ isBlockedPage r.text = true) := by
  unfold classifyAttempt
  dsimp only
  rw [hst]
  simp only [Bool.false_eq_true, if_false]
  refine ⟨?_, ?_, ?_⟩
  · intro hsig
    have hb : isBlockedPage r.text = true := by
      unfold isBlockedPage blockSignals
      simp only [List.any_cons, Bool.or_eq_true]
      exact Or.inl hsig
    rw [hb]
    simp
  · intro hall
    have hb : isBlockedPage r.text = false := by
      unfold isBlockedPage
      simp only [List.any_eq_false]
      intro s hs
      simp [hall s hs]
    rw [hb]
    simp only [Bool.false_eq_true, if_false]
    intro h
    exact AttemptClass.noConfusion h
  · constructor
    · intro h
      by_cases hb : isBlockedPage r.text = true
      · exact hb
      · rw [Bool.not_eq_true] at hb
        rw [hb] at h
        simp only [Bool.false_eq_true, if_false] at h
        exact absurd h (fun hh => AttemptClass.noConfusion hh)
    · intro hb
      rw [hb]
      simp

/-- C6 witness: a 200 response containing `"Just a MOMENT..."` early in
the body is classified blocked (case-insensitive match). -/
theorem blocked_classification_amended_witness :
    (400 ≤ 200 && 200 < 600) = false ∧
    classifyAttempt (.resp ⟨200, "xx Just a MOMENT, please", []⟩) = .blockedPage :=
  ⟨by decide,
   (blocked_classification_amended ⟨200, "xx Just a MOMENT, please", []⟩
      (by decide)).1 (by decide)⟩

/-- C10 witness: the theorem applied to the concrete anchor
`<a href="page.html">` on host `example.com`. -/
theorem relative_links_dropped_witness :
    internalOf "example.com" plainRelAnchor = none ∧
    externalOf "example.com" plainRelAnchor = none ∧
    (parseContent "u" "s" "t" [plainRelAnchor] "example.com").internal_links =
      some (((anchorsOf [plainRelAnchor])).filterMap (internalOf "example.com")) ∧
    (parseContent "u" "s" "t" [plainRelAnchor] "example.com").external_links =
      some (((anchorsOf [plainRelAnchor])).filterMap (externalOf "example.com")) :=
  relative_links_dropped "u" "s" "t" "example.com" [plainRelAnchor] plainRelAnchor
    (by decide) (by decide) (by decide)

/-! ## Crawler helper lemmas -/
theorem strStarts_slash_append (s : String) : strStarts ("/" ++ s) "/" = true := by
  show listStarts ("/" : String).data ("/" ++ s).data = true
  have h1 : ("/" ++ s).data = '/' :: s.data := rfl
  rw [h1]
  show listStarts ['/'] ('/' :: s.data) = true
  simp [listStarts]

theorem pageOfLoc_slug (u : String) : strStarts (pageOfLoc u).slug "/" = true := by
  unfold pageOfLoc
  dsimp only
  by_cases h : strStarts (if (rstripSlashes (pyUrlparse u).path) == "" then "/"
      else rstripSlashes (pyUrlparse u).path) "/" = true
  · rw [if_pos h]
    exact h
  · rw [if_neg h]
    exact strStarts_slash_append _

theorem urlsetPages_slug {ns : String} {root : XmlElem} {p : SitePage}
    (hp : p ∈ urlsetPages ns root) : strStarts p.slug "/" = true := by
  unfold urlsetPages at hp
  rw [List.mem_filterMap] at hp
  obtain ⟨u, _, he⟩ := hp
  cases hcl : childLoc ns u with
  | none => rw [hcl] at he; simp at he
  | some loc =>
    rw [hcl] at he
    simp only [Option.some.injEq] at he
    exact he ▸ pageOfLoc_slug loc

/-! ## Claim theorems: sitemap parsing -/
/-- C8: for every input string on which the XML reader fails (the model
of `ET.ParseError`), `parse` returns the empty page sequence — and, the
embedding being a total function, no exception escapes it. -/
theorem malformed_sitemap_empty (env : CrawlEnv) (fuel depth : Nat) (s : String)
    (h : fromstring s = none) :
    parseSitemapXml env fuel depth s = ([], []) := by
  unfold parseSitemapXml
  split
  · rfl
  · simp only [h]

/-- C8 witness: the truncated document `<urlset><url>` fails to parse and
yields no pages and no fetches. -/
theorem malformed_sitemap_empty_witness :
    fromstring badXml = none ∧
    parseSitemapXml emptyCrawlEnv 4 0 badXml = ([], []) :=
  ⟨rfl, malformed_sitemap_empty emptyCrawlEnv 4 0 badXml rfl⟩

/-- C9: every page produced by `parse` — from any url-set or nested
sitemap-index input — has a slug that starts with `"/"`. -/
theorem sitemap_slug_invariant (env : CrawlEnv) (fuel : Nat) :
    ∀ (depth : Nat) (s : String) (p : SitePage),
      p ∈ (parseSitemapXml env fuel depth s).1 → strStarts p.slug "/" = true := by
  induction fuel with
  | zero =>
    intro depth s p hp
    unfold parseSitemapXml at hp
    split at hp
    · simp at hp
    · split at hp
      · simp at hp
      · split at hp
        · simp at hp
        · exact urlsetPages_slug hp
  | succ f ih =>
    intro depth s p hp
    unfold parseSitemapXml at hp
    split at hp
    · simp at hp
    · split at hp
      · simp at hp
      · split at hp
        · simp only [List.mem_flatten, List.mem_map] at hp
          obtain ⟨l, ⟨part, hpart, rfl⟩, hpl⟩ := hp
          obtain ⟨sm, _, rfl⟩ := hpart
          cases hcl : childLoc (nsOf _) sm with
          | none => rw [hcl] at hpl; simp at hpl
          | some u =>
            rw [hcl] at hpl
            dsimp only at hpl
            cases hsm : env.sitemap u with
            | none => rw [hsm] at hpl; simp at hpl
            | some s2 =>
              rw [hsm] at hpl
              exact ih (depth + 1) s2 p hpl
        · exact urlsetPages_slug hp

/-- C9 witness: the theorem applied to the page produced from the nested
concrete sitemap index. -/
theorem sitemap_slug_invariant_witness :
    strStarts (SitePage.mk "https://e.com/blog/my-post/" "/blog/my-post" "My Post").slug
      "/" = true :=
  sitemap_slug_invariant crawlEnvW 4 0 wsIdxXml
    (SitePage.mk "https://e.com/blog/my-post/" "/blog/my-post" "My Post")
    (by set_option maxRecDepth 100000 in decide)

/-- 
The index branch equals, child by child, the concatenation of the leaf
url-set pages the child contributes (induction over the child list; `ih`
is the fuel induction hypothesis). -/
theorem index_children_eq (env : CrawlEnv) (f depth : Nat) (ns : String)
    (ih : ∀ depth' s', (parseSitemapXml env f depth' s').1 = specSitemapPages env f depth' s')
    (children : List XmlElem) :
    ((children.map (fun sm =>
        match childLoc ns sm with
        | none => (([] : List SitePage), ([] : List CrawlEv))
        | some u =>
          match env.sitemap u with
          | none => ([], [CrawlEv.fetch u])
          | some s2 =>
            ((parseSitemapXml env f depth s2).1,
             CrawlEv.fetch u :: (parseSitemapXml env f depth s2).2))).map Prod.fst).flatten
    = ((children.map (fun sm =>
        match childLoc ns sm with
        | none => []
        | some u =>
          match env.sitemap u with
          | none => []
          | some s2 => leafUrlsetDocs env f depth s2)).flatten.map
        (fun root => urlsetPages (nsOf root) root)).flatten := by
  induction children with
  | nil => rfl
  | cons sm rest ihc =>
    simp only [List.map_cons, List.flatten_cons, List.map_append, List.flatten_append]
    rw [ihc]
    congr 1
    cases hcl : childLoc ns sm with
    | none => rfl
    | some u =>
      dsimp only
      cases hsm : env.sitemap u with
      | none => rfl
      | some s2 =>
        dsimp only
        have h2 := ih depth s2
        unfold specSitemapPages at h2
        exact h2

/-- C3: `parse` returns exactly the concatenation, in document order, of
the pages of all leaf url-set documents reachable through the nested
sitemap indexes (with every branch cut at depth > 3), and at depth > 3 it
contributes no pages at all. -/
theorem sitemap_parse_leaf_concat (env : CrawlEnv) (fuel : Nat) :
    ∀ (depth : Nat) (s : String),
      (parseSitemapXml env fuel depth s).1 = specSitemapPages env fuel depth s ∧
      (3 < depth → (parseSitemapXml env fuel depth s).1 = []) := by
  induction fuel with
  | zero =>
    intro depth s
    constructor
    · by_cases hd : depth > 3
      · simp [parseSitemapXml, specSitemapPages, leafUrlsetDocs, hd]
      · cases hf : fromstring s with
        | none => simp [parseSitemapXml, specSitemapPages, leafUrlsetDocs, hd, hf]
        | some root =>
          by_cases hx : strHasSub root.tag "sitemapindex" = true
          · simp [parseSitemapXml, specSitemapPages, leafUrlsetDocs, hd, hf, hx]
          · simp [parseSitemapXml, specSitemapPages, leafUrlsetDocs, hd, hf, hx]
    · intro hdp
      unfold parseSitemapXml
      rw [if_pos hdp]
  | succ f ih =>
    intro depth s
    have ih1 : ∀ depth' s', (parseSitemapXml env f depth' s').1 =
        specSitemapPages env f depth' s' := fun d' s' => (ih d' s').1
    constructor
    · by_cases hd : depth > 3
      · unfold parseSitemapXml specSitemapPages leafUrlsetDocs
        rw [if_pos hd, if_pos hd]
        rfl
      · cases hf : fromstring s with
        | none =>
          unfold parseSitemapXml specSitemapPages leafUrlsetDocs
          rw [if_neg hd, if_neg hd, hf]
          rfl
        | some root =>
          by_cases hx : strHasSub root.tag "sitemapindex" = true
          · unfold parseSitemapXml specSitemapPages leafUrlsetDocs
            rw [if_neg hd, if_neg hd, hf]
            dsimp only
            rw [if_pos hx, if_pos hx]
            dsimp only
            exact index_children_eq env f (depth + 1) (nsOf root) ih1
              (childrenTagged (nsOf root ++ "sitemap") root)
          · unfold parseSitemapXml specSitemapPages leafUrlsetDocs
            rw [if_neg hd, if_neg hd, hf]
            dsimp only
            rw [if_neg hx, if_neg hx]
            simp
    · intro hdp
      unfold parseSitemapXml
      rw [if_pos hdp]

/-- C3 witness: the concrete nested index agrees with its leaf
concatenation, and at depth 4 the same document yields nothing. -/
theorem sitemap_parse_leaf_concat_witness :
    (parseSitemapXml crawlEnvW 4 0 wsIdxXml).1 = specSitemapPages crawlEnvW 4 0 wsIdxXml ∧
    (parseSitemapXml crawlEnvW 4 4 wsIdxXml).1 = [] :=
  ⟨(sitemap_parse_leaf_concat crawlEnvW 4 0 wsIdxXml).1,
   (sitemap_parse_leaf_concat crawlEnvW 4 4 wsIdxXml).2 (by decide)⟩

/-! ## Candidate-loop lemmas and C5 -/
theorem parse_events_fetch (env : CrawlEnv) (fuel : Nat) :
    ∀ (depth : Nat) (s : String) (e : CrawlEv),
      e ∈ (parseSitemapXml env fuel depth s).2 → ∃ u, e = CrawlEv.fetch u := by
  induction fuel with
  | zero =>
    intro depth s e he
    unfold parseSitemapXml at he
    split at he
    · simp at he
    · split at he
      · simp at he
      · split at he
        · simp at he
        · simp at he
  | succ f ih =>
    intro depth s e he
    unfold parseSitemapXml at he
    split at he
    · simp at he
    · split at he
      · simp at he
      · split at he
        · simp only [List.mem_flatten, List.mem_map] at he
          obtain ⟨l, ⟨part, hpart, rfl⟩, hel⟩ := he
          obtain ⟨sm, _, rfl⟩ := hpart
          cases hcl : childLoc (nsOf _) sm with
          | none => rw [hcl] at hel; simp at hel
          | some u =>
            rw [hcl] at hel
            dsimp only at hel
            cases hsm : env.sitemap u with
            | none =>
              rw [hsm] at hel
              simp only [List.mem_singleton] at hel
              exact ⟨u, hel⟩
            | some s2 =>
              rw [hsm] at hel
              dsimp only at hel
              rw [List.mem_cons] at hel
              cases hel with
              | inl h => exact ⟨u, h⟩
              | inr h => exact ih (depth + 1) s2 e h
        · simp at he

theorem fetchAndParse_events_fetch (env : CrawlEnv) (fuel depth : Nat) (url : String) :
    ∀ e ∈ (fetchAndParse env fuel depth url).2, ∃ u, e = CrawlEv.fetch u := by
  intro e he
  unfold fetchAndParse at he
  split at he
  · simp only [List.mem_singleton] at he
    exact ⟨url, he⟩
  · dsimp only at he
    rw [List.mem_cons] at he
    cases he with
    | inl h => exact ⟨url, h⟩
    | inr h => exact parse_events_fetch env fuel depth _ e h

theorem candTried_eq_nil {evs : List CrawlEv}
    (h : ∀ e ∈ evs, ∃ u, e = CrawlEv.fetch u) : candTried evs = [] := by
  induction evs with
  | nil => rfl
  | cons e rest ih =>
    obtain ⟨u, rfl⟩ := h e (List.mem_cons_self e rest)
    simp only [candTried, List.filterMap_cons]
    exact ih (fun e' he' => h e' (List.mem_cons_of_mem _ he'))

theorem candTried_append (a b : List CrawlEv) :
    candTried (a ++ b) = candTried a ++ candTried b := by
  simp [candTried, List.filterMap_append]

theorem robots_events (env : CrawlEnv) (d : String) :
    (robotsSitemaps env d).2 = [CrawlEv.robotsGet (d ++ "/robots.txt")] := by
  unfold robotsSitemaps
  split
  · rfl
  · split <;> rfl

theorem tryCandidates_spec (env : CrawlEnv) (cands : List String) :
    (tryCandidates env cands).1 =
      (match cands.find? (fun c => !(fetchAndParse env 4 0 c).1.isEmpty) with
       | some w => (fetchAndParse env 4 0 w).1
       | none => []) ∧
    candTried (tryCandidates env cands).2 =
      cands.takeWhile (fun c => (fetchAndParse env 4 0 c).1.isEmpty) ++
      (cands.dropWhile (fun c => (fetchAndParse env 4 0 c).1.isEmpty)).take 1 := by
  induction cands with
  | nil => exact ⟨rfl, rfl⟩
  | cons c rest ih =>
    by_cases hc : (fetchAndParse env 4 0 c).1.isEmpty = true
    · constructor
      · unfold tryCandidates
        rw [if_pos hc]
        dsimp only
        rw [List.find?_cons_of_neg _ (by simp [hc])]
        exact ih.1
      · unfold tryCandidates
        rw [if_pos hc]
        dsimp only
        rw [candTried_append]
        have ht : List.takeWhile (fun c => (fetchAndParse env 4 0 c).1.isEmpty) (c :: rest) =
            c :: List.takeWhile (fun c => (fetchAndParse env 4 0 c).1.isEmpty) rest := by
          simp [List.takeWhile_cons, hc]
        have hdw : List.dropWhile (fun c => (fetchAndParse env 4 0 c).1.isEmpty) (c :: rest) =
            List.dropWhile (fun c => (fetchAndParse env 4 0 c).1.isEmpty) rest := by
          simp [List.dropWhile_cons, hc]
        rw [ht, hdw]
        have h1 : candTried (CrawlEv.cand c :: (fetchAndParse env 4 0 c).2) =
            [c] ++ candTried (fetchAndParse env 4 0 c).2 := rfl
        rw [h1, candTried_eq_nil (fetchAndParse_events_fetch env 4 0 c)]
        rw [ih.2]
        simp
    · constructor
      · unfold tryCandidates
        rw [if_neg hc]
        rw [List.find?_cons_of_pos _ (by simp [hc])]
      · unfold tryCandidates
        rw [if_neg hc]
        dsimp only
        have h1 : candTried (CrawlEv.cand c :: (fetchAndParse env 4 0 c).2) =
            [c] ++ candTried (fetchAndParse env 4 0 c).2 := rfl
        rw [h1, candTried_eq_nil (fetchAndParse_events_fetch env 4 0 c)]
        have ht : List.takeWhile (fun c => (fetchAndParse env 4 0 c).1.isEmpty) (c :: rest) =
            [] := by
          simp [List.takeWhile_cons, hc]
        have hdw : List.dropWhile (fun c => (fetchAndParse env 4 0 c).1.isEmpty) (c :: rest) =
            c :: rest := by
          simp [List.dropWhile_cons, hc]
        rw [ht, hdw]
        rfl

/-- C5: on a cache miss, `resolve` tries the candidates in fixed order —
robots-declared sitemaps in file order, then `/sitemap.xml`,
`/sitemap_index.xml`, `/sitemap-index.xml`, `/wp-sitemap.xml` — returns
exactly the page sequence of the first candidate yielding at least one
page (never a merge of several), and the candidates tried are precisely
the losing candidates up to and including that winner. -/
theorem resolver_first_candidate_wins (env : CrawlEnv) (domain0 : String)
    (ss : Option Cache) (mc : Cache)
    (hss : sessionLookup ss ("sitemap_" ++ normalizeDomain domain0) = none)
    (hmc : mc.lookup ("sitemap_" ++ normalizeDomain domain0) = none) :
    (get_site_pages env domain0 ss mc).1 =
      (match ((robotsSitemaps env (normalizeDomain domain0)).1 ++
              fallbackCandidates (normalizeDomain domain0)).find?
          (fun c => !(fetchAndParse env 4 0 c).1.isEmpty) with
       | some w => (fetchAndParse env 4 0 w).1
       | none => []) ∧
    candTried (get_site_pages env domain0 ss mc).2.2.2 =
      ((robotsSitemaps env (normalizeDomain domain0)).1 ++
        fallbackCandidates (normalizeDomain domain0)).takeWhile
          (fun c => (fetchAndParse env 4 0 c).1.isEmpty) ++
      (((robotsSitemaps env (normalizeDomain domain0)).1 ++
        fallbackCandidates (normalizeDomain domain0)).dropWhile
          (fun c => (fetchAndParse env 4 0 c).1.isEmpty)).take 1 := by
  have hred : get_site_pages env domain0 ss mc =
      ((resolveFresh env (normalizeDomain domain0)).1,
       sessionPut ss ("sitemap_" ++ normalizeDomain domain0)
         (resolveFresh env (normalizeDomain domain0)).1,
       cachePut mc ("sitemap_" ++ normalizeDomain domain0)
         (resolveFresh env (normalizeDomain domain0)).1,
       (resolveFresh env (normalizeDomain domain0)).2) := by
    simp only [get_site_pages]
    rw [hss]
    dsimp only
    rw [hmc]
  rw [hred]
  dsimp only
  unfold resolveFresh
  dsimp only
  refine ⟨(tryCandidates_spec env _).1, ?_⟩
  rw [candTried_append, robots_events]
  have h0 : candTried [CrawlEv.robotsGet (normalizeDomain domain0 ++ "/robots.txt")] = [] := rfl
  rw [h0, List.nil_append]
  exact (tryCandidates_spec env _).2

/-- C5 witness: with a robots-declared candidate that 404s and a working
`/sitemap.xml` index, the resolver returns the index's pages and tries
exactly those two candidates. -/
theorem resolver_first_candidate_wins_witness :
    (get_site_pages crawlEnvW "e.com" (some []) []).1 =
      [⟨"https://e.com/blog/my-post/", "/blog/my-post", "My Post"⟩,
       ⟨"https://e.com/other_page", "/other_page", "Other Page"⟩] ∧
    candTried (get_site_pages crawlEnvW "e.com" (some []) []).2.2.2 =
      ["https://e.com/custom.xml", "https://e.com/sitemap.xml"] := by
  have h := resolver_first_candidate_wins crawlEnvW "e.com" (some []) [] rfl rfl
  exact ⟨h.1.trans (by set_option maxRecDepth 400000 in decide),
         h.2.trans (by set_option maxRecDepth 400000 in decide)⟩

/-! ## Cache-path equations for `get_site_pages`, and C7 -/
theorem cachePut_lookup (c : Cache) (k : String) (v : List SitePage) :
    List.lookup k (cachePut c k v) = some v := by
  simp [cachePut, List.lookup]

theorem gsp_session_hit (env : CrawlEnv) (domain0 : String) (ss : Cache) (mc : Cache)
    (v : List SitePage)
    (hs : List.lookup ("sitemap_" ++ normalizeDomain domain0) ss = some v) :
    get_site_pages env domain0 (some ss) mc = (v, some ss, mc, []) := by
  simp only [get_site_pages, sessionLookup]
  rw [hs]

theorem gsp_module_hit (env : CrawlEnv) (domain0 : String) (ss : Cache) (mc : Cache)
    (v : List SitePage)
    (hs : List.lookup ("sitemap_" ++ normalizeDomain domain0) ss = none)
    (hm : List.lookup ("sitemap_" ++ normalizeDomain domain0) mc = some v) :
    get_site_pages env domain0 (some ss) mc = (v, some ss, mc, []) := by
  simp only [get_site_pages, sessionLookup]
  rw [hs]
  dsimp only
  rw [hm]

theorem gsp_module_hit_no_session (env : CrawlEnv) (domain0 : String) (mc : Cache)
    (v : List SitePage)
    (hm : List.lookup ("sitemap_" ++ normalizeDomain domain0) mc = some v) :
    get_site_pages env domain0 none mc = (v, none, mc, []) := by
  simp only [get_site_pages, sessionLookup]
  rw [hm]

theorem gsp_miss (env : CrawlEnv) (domain0 : String) (ss : Cache) (mc : Cache)
    (hs : List.lookup ("sitemap_" ++ normalizeDomain domain0) ss = none)
    (hm : List.lookup ("sitemap_" ++ normalizeDomain domain0) mc = none) :
    get_site_pages env domain0 (some ss) mc =
      ((resolveFresh env (normalizeDomain domain0)).1,
       some (cachePut ss ("sitemap_" ++ normalizeDomain domain0)
         (resolveFresh env (normalizeDomain domain0)).1),
       cachePut mc ("sitemap_" ++ normalizeDomain domain0)
         (resolveFresh env (normalizeDomain domain0)).1,
       (resolveFresh env (normalizeDomain domain0)).2) := by
  simp only [get_site_pages, sessionLookup]
  rw [hs]
  dsimp only
  rw [hm]
  rfl

theorem gsp_miss_no_session (env : CrawlEnv) (domain0 : String) (mc : Cache)
    (hm : List.lookup ("sitemap_" ++ normalizeDomain domain0) mc = none) :
    get_site_pages env domain0 none mc =
      ((resolveFresh env (normalizeDomain domain0)).1, none,
       cachePut mc ("sitemap_" ++ normalizeDomain domain0)
         (resolveFresh env (normalizeDomain domain0)).1,
       (resolveFresh env (normalizeDomain domain0)).2) := by
  simp only [get_site_pages, sessionLookup]
  rw [hm]
  rfl

/-- C7: resolving the same domain a second time with the caches left by
the first call performs no network I/O and returns the identical
sequence; the session-scoped cache is consulted before the process-wide
one; and on a miss the resolution is written into both caches. -/
theorem resolver_cache_behavior (env : CrawlEnv) (domain0 : String)
    (ss : Cache) (mc : Cache) :
    ((resolveTwice env domain0 (some ss) mc).2.1 =
        (resolveTwice env domain0 (some ss) mc).1.1 ∧
     (resolveTwice env domain0 (some ss) mc).2.2.2.2 = []) ∧
    ((resolveTwice env domain0 none mc).2.1 =
        (resolveTwice env domain0 none mc).1.1 ∧
     (resolveTwice env domain0 none mc).2.2.2.2 = []) ∧
    ((get_site_pages env domain0 (some ss) mc).1 =
      match List.lookup ("sitemap_" ++ normalizeDomain domain0) ss with
      | some v => v
      | none =>
        match List.lookup ("sitemap_" ++ normalizeDomain domain0) mc with
        | some v => v
        | none => (resolveFresh env (normalizeDomain domain0)).1) ∧
    (match List.lookup ("sitemap_" ++ normalizeDomain domain0) ss,
           List.lookup ("sitemap_" ++ normalizeDomain domain0) mc with
     | none, none =>
       List.lookup ("sitemap_" ++ normalizeDomain domain0)
           (get_site_pages env domain0 (some ss) mc).2.2.1 =
         some (get_site_pages env domain0 (some ss) mc).1 ∧
       (get_site_pages env domain0 (some ss) mc).2.1 =
         some (cachePut ss ("sitemap_" ++ normalizeDomain domain0)
           (get_site_pages env domain0 (some ss) mc).1)
     | _, _ => True) := by
  cases hs : List.lookup ("sitemap_" ++ normalizeDomain domain0) ss with
  | some v =>
    have h1 := gsp_session_hit env domain0 ss mc v hs
    refine ⟨?_, ?_, ?_, ?_⟩
    · unfold resolveTwice
      rw [h1]
      dsimp only
      rw [h1]
      exact ⟨rfl, rfl⟩
    · cases hm : List.lookup ("sitemap_" ++ normalizeDomain domain0) mc with
      | some w =>
        have h2 := gsp_module_hit_no_session env domain0 mc w hm
        unfold resolveTwice
        rw [h2]
        dsimp only
        rw [h2]
        exact ⟨rfl, rfl⟩
      | none =>
        have h2 := gsp_miss_no_session env domain0 mc hm
        unfold resolveTwice
        rw [h2]
        dsimp only
        rw [gsp_module_hit_no_session env domain0 _ _ (cachePut_lookup mc _ _)]
        exact ⟨rfl, rfl⟩
    · rw [h1]
    · trivial
  | none =>
    cases hm : List.lookup ("sitemap_" ++ normalizeDomain domain0) mc with
    | some w =>
      have h1 := gsp_module_hit env domain0 ss mc w hs hm
      refine ⟨?_, ?_, ?_, ?_⟩
      · unfold resolveTwice
        rw [h1]
        dsimp only
        rw [h1]
        exact ⟨rfl, rfl⟩
      · have h2 := gsp_module_hit_no_session env domain0 mc w hm
        unfold resolveTwice
        rw [h2]
        dsimp only
        rw [h2]
        exact ⟨rfl, rfl⟩
      · rw [h1]
      · trivial
    | none =>
      have h1 := gsp_miss env domain0 ss mc hs hm
      refine ⟨?_, ?_, ?_, ?_⟩
      · unfold resolveTwice
        rw [h1]
        dsimp only
        rw [gsp_session_hit env domain0 _ _ _ (cachePut_lookup ss _ _)]
        exact ⟨rfl, rfl⟩
      · have h2 := gsp_miss_no_session env domain0 mc hm
        unfold resolveTwice
        rw [h2]
        dsimp only
        rw [gsp_module_hit_no_session env domain0 _ _ (cachePut_lookup mc _ _)]
        exact ⟨rfl, rfl⟩
      · rw [h1]
      · dsimp only
        rw [h1]
        exact ⟨cachePut_lookup mc _ _, rfl⟩

end BlogRevival
